import Mathlib

/-!
# Verification of the Stock Dashboard (`Dashboardv5.py`)

A shallow embedding of the data-to-levels pipeline of the dashboard:

* `argrelextrema` — `scipy.signal.argrelextrema` with the default
  `mode='clip'` (out-of-range neighbour positions are clipped to the
  array boundary) and the validation `order ≥ 1` (a smaller order raises
  `ValueError`, modelled as `none`);
* `find_support_resistance` — the support/resistance level detector;
* `get_stock_data` — the fetcher with its empty-ticker short-circuit and
  the row-wise `dropna` completeness filter;
* `rolling_mean` — `pandas.Series.rolling(window=period).mean()` as used
  for the SMA overlay in `plot_candlestick`;
* `main_dispatch` — the top-level branch structure of the script body
  (empty selection / invalid date range / fetch pipeline);
* `grid_cells` — the grid loop assigning each selected ticker a column.

Prices are modelled as exact rationals; missing cells as `none`.
-/

namespace StockDashboard

/-- `np.take(..., mode='clip')`: clip an integer position into `[0, n-1]`. -/
def clipIdx (n : Nat) (i : Int) : Nat := (min (max i 0) ((n : Int) - 1)).toNat

/-- The value of `prices` at a clipped position (as read by `np.take` with
`mode='clip'` inside scipy's `_boolrelextrema`). -/
def takeClip (prices : List ℚ) (i : Int) : ℚ := prices.getD (clipIdx prices.length i) 0

/-- scipy `_boolrelextrema` at a single index: `results[i]` is true iff for
every `shift` in `1..order`, `comparator(data[i], data[i+shift])` and
`comparator(data[i], data[i-shift])` hold, neighbour positions clipped. -/
def isExtremum (cmp : ℚ → ℚ → Bool) (prices : List ℚ) (order : Nat) (i : Nat) : Bool :=
  (List.range order).all fun s =>
    cmp (prices.getD i 0) (takeClip prices ((i : Int) + ((s : Int) + 1))) &&
    cmp (prices.getD i 0) (takeClip prices ((i : Int) - ((s : Int) + 1)))

/-- The comparator `lambda x, y: x > y` used for resistance. -/
def gtCmp (x y : ℚ) : Bool := decide (x > y)

/-- The comparator `lambda x, y: x < y` used for support. -/
def ltCmp (x y : ℚ) : Bool := decide (x < y)

/-- `scipy.signal.argrelextrema(data, comparator, order=order)[0]`:
the indices at which `isExtremum` holds, or `none` when the call raises
`ValueError('Order must be an int >= 1')` because `order < 1`. -/
def argrelextrema (cmp : ℚ → ℚ → Bool) (prices : List ℚ) (order : Nat) :
    Option (List Nat) :=
  if order < 1 then none
  else some ((List.range prices.length).filter (isExtremum cmp prices order))

/-- The per-ticker frame passed to `find_support_resistance`: whether a
`'Close'` column exists, and the close series. When the frame has a Close
column, `df.empty` is equivalent to the close series being empty; when it
lacks one the guard returns early on `'Close' not in df.columns` and the
emptiness test cannot change the result. -/
structure StockDF where
  hasClose : Bool
  close : List ℚ
deriving DecidableEq

/-- `df.empty` (see `StockDF`). -/
def StockDF.isEmpty (df : StockDF) : Bool := df.close.isEmpty

/-- `find_support_resistance(df, window, num_levels)`:
returns `some (support_levels, resistance_levels)`, or `none` when the
`argrelextrema` call raises. Python's `sorted(list(set(xs)))` is modelled
as `(xs.dedup).insertionSort (· ≤ ·)`, and `sorted(..., reverse=True)` as
its reverse (on duplicate-free values the stable descending sort is the
reverse of the ascending one). -/
def find_support_resistance (df : StockDF) (window : Nat) (num_levels : Nat) :
    Option (List ℚ × List ℚ) :=
  if df.isEmpty || !df.hasClose then some ([], [])
  else
    let prices := df.close
    match argrelextrema gtCmp prices window with
    | none => none
    | some resistance_indices =>
      match argrelextrema ltCmp prices window with
      | none => none
      | some support_indices =>
        let resistance_levels := resistance_indices.map fun i => prices.getD i 0
        let support_levels := support_indices.map fun i => prices.getD i 0
        let resistance_sorted :=
          ((resistance_levels.dedup.insertionSort (· ≤ ·)).reverse).take num_levels
        let support_sorted :=
          (support_levels.dedup.insertionSort (· ≤ ·)).take num_levels
        some (support_sorted, resistance_sorted)

/-- `DataFrame.dropna()`: keep only the rows in which every cell is present. -/
def dropna (rows : List (List (Option ℚ))) : List (List (Option ℚ)) :=
  rows.filter fun row => row.all fun cell => cell.isSome

/-- Result of `get_stock_data`: the returned frame, and whether the
provider (`yf.download`) was invoked. -/
structure FetchResult where
  frame : List (List (Option ℚ))
  provider_called : Bool
deriving DecidableEq

/-- `get_stock_data(tickers, start, end)`: empty-ticker short-circuit, then
one provider call followed by the row-wise `dropna` filter. `download`
stands for the frame `yf.download` would return for this request. -/
def get_stock_data (tickers : List String) (download : List (List (Option ℚ))) :
    FetchResult :=
  if tickers.isEmpty then { frame := [], provider_called := false }
  else { frame := dropna download, provider_called := true }

/-- `plot_data['Close'].rolling(window=period).mean()`: at row `i` the mean
of the trailing `period` closes ending at `i`, `none` (NaN) while fewer
than `period` rows are available. -/
def rolling_mean (closes : List ℚ) (period : Nat) : List (Option ℚ) :=
  (List.range closes.length).map fun i =>
    if i + 1 < period then none
    else some ((((closes.take (i + 1)).drop (i + 1 - period)).sum) / (period : ℚ))

/-- The chart built by `plot_candlestick` when the SMA overlay is requested:
the candlestick trace over the close series is added unconditionally, then
the SMA overlay series. -/
structure ChartSpec where
  candles : List ℚ
  sma : List (Option ℚ)
deriving DecidableEq

/-- `plot_candlestick` with `show_sma=True` on a frame whose Close series is
`closes`: candlesticks over the series plus the rolling-mean overlay. -/
def plot_sma_chart (closes : List ℚ) (period : Nat) : ChartSpec :=
  { candles := closes, sma := rolling_mean closes period }

/-- The three top-level branches of the script body. -/
inductive MainAction where
  | selectPrompt : MainAction
  | invalidDateRange : MainAction
  | fetchPipeline : MainAction
deriving DecidableEq

/-- The branch structure
`if not selected_tickers: ... elif start_date >= end_date: ... else: ...`;
`get_stock_data` is called exactly in the `fetchPipeline` branch. Dates are
modelled as integers (e.g. days since an epoch) ordered as calendar dates. -/
def main_dispatch (selected_tickers : List String) (start_date end_date : Int) :
    MainAction :=
  if selected_tickers.isEmpty then MainAction.selectPrompt
  else if end_date ≤ start_date then MainAction.invalidDateRange
  else MainAction.fetchPipeline

/-- `CHART_COLUMNS = 3`. -/
def CHART_COLUMNS : Nat := 3

/-- One grid cell produced by the loop
`for i, ticker in enumerate(selected_tickers)`: the ticker, the column
`i % CHART_COLUMNS` it is placed in, and whether the cell holds the
no-data warning instead of a chart. -/
structure GridCell where
  ticker : String
  column : Nat
  warning : Bool
deriving DecidableEq

instance : Inhabited GridCell := ⟨{ ticker := "", column := 0, warning := false }⟩

/-- The grid loop of the script body: one cell per selected ticker, in
selection order, placed round-robin over `CHART_COLUMNS` columns;
`has_data t` is the availability test
`(('Close', t) in data.columns) or (t in data.columns)`. -/
def grid_cells (selected_tickers : List String) (has_data : String → Bool) :
    List GridCell :=
  selected_tickers.enum.map fun p =>
    { ticker := p.2, column := p.1 % CHART_COLUMNS, warning := !has_data p.2 }

/-! ## Helper lemmas -/

theorem gtCmp_irrefl (x : ℚ) : gtCmp x x = false := by simp [gtCmp]

theorem ltCmp_irrefl (x : ℚ) : ltCmp x x = false := by simp [ltCmp]

/-- With `mode='clip'`, the left neighbour of index 0 is index 0 itself, so an
irreflexive comparator never accepts index 0. -/
theorem isExtremum_zero_eq_false (cmp : ℚ → ℚ → Bool) (hc : ∀ x, cmp x x = false)
    (prices : List ℚ) (w : Nat) (hw : 1 ≤ w) :
    isExtremum cmp prices w 0 = false := by
  have hclip : clipIdx prices.length (-1) = 0 := by
    unfold clipIdx; omega
  unfold isExtremum
  rw [List.all_eq_false]
  refine ⟨0, List.mem_range.mpr hw, ?_⟩
  simp only [Nat.cast_zero, zero_add, zero_sub, takeClip, hclip, hc, Bool.and_false,
    Bool.false_eq_true, not_false_eq_true]

/-- With `mode='clip'`, the right neighbour of the last index is the last index
itself, so an irreflexive comparator never accepts the last index. -/
theorem isExtremum_last_eq_false (cmp : ℚ → ℚ → Bool) (hc : ∀ x, cmp x x = false)
    (prices : List ℚ) (w : Nat) (hw : 1 ≤ w) :
    isExtremum cmp prices w (prices.length - 1) = false := by
  have hclip :
      clipIdx prices.length (((prices.length - 1 : Nat) : Int) + 1) = prices.length - 1 := by
    unfold clipIdx; omega
  unfold isExtremum
  rw [List.all_eq_false]
  refine ⟨0, List.mem_range.mpr hw, ?_⟩
  simp only [Nat.cast_zero, zero_add, takeClip, hclip, hc, Bool.false_and,
    Bool.false_eq_true, not_false_eq_true]

/-- For `window ≥ 1`, no index of a series with fewer than 3 points passes the
extremum test of an irreflexive comparator (every index is a boundary index). -/
theorem filter_isExtremum_short (cmp : ℚ → ℚ → Bool) (hc : ∀ x, cmp x x = false)
    (prices : List ℚ) (w : Nat) (hw : 1 ≤ w) (hlen : prices.length < 3) :
    (List.range prices.length).filter (isExtremum cmp prices w) = [] := by
  rw [List.filter_eq_nil_iff]
  intro a ha
  rw [List.mem_range] at ha
  rcases (by omega : a = 0 ∨ a = prices.length - 1) with h | h
  · rw [h, isExtremum_zero_eq_false cmp hc prices w hw]; simp
  · rw [h, isExtremum_last_eq_false cmp hc prices w hw]; simp

/-- The ascending sorted-distinct-take shape of the support output:
strictly ascending, duplicate-free, at most `k` elements. -/
theorem sorted_take_asc (l : List ℚ) (k : Nat) :
    List.Sorted (· < ·) ((l.dedup.insertionSort (· ≤ ·)).take k) ∧
    ((l.dedup.insertionSort (· ≤ ·)).take k).Nodup ∧
    ((l.dedup.insertionSort (· ≤ ·)).take k).length ≤ k := by
  have hs : List.Sorted (· ≤ ·) (l.dedup.insertionSort (· ≤ ·)) :=
    List.sorted_insertionSort (· ≤ ·) l.dedup
  have hn : (l.dedup.insertionSort (· ≤ ·)).Nodup :=
    (List.perm_insertionSort (· ≤ ·) l.dedup).symm.nodup (List.nodup_dedup l)
  have hlt : List.Sorted (· < ·) (l.dedup.insertionSort (· ≤ ·)) := hs.lt_of_le hn
  exact ⟨List.Pairwise.sublist (List.take_sublist k _) hlt,
    List.Nodup.sublist (List.take_sublist k _) hn,
    List.length_take_le k _⟩

/-- The descending sorted-distinct-take shape of the resistance output:
strictly descending, duplicate-free, at most `k` elements. -/
theorem sorted_take_desc (l : List ℚ) (k : Nat) :
    List.Sorted (· > ·) (((l.dedup.insertionSort (· ≤ ·)).reverse).take k) ∧
    (((l.dedup.insertionSort (· ≤ ·)).reverse).take k).Nodup ∧
    (((l.dedup.insertionSort (· ≤ ·)).reverse).take k).length ≤ k := by
  have hs : List.Sorted (· ≤ ·) (l.dedup.insertionSort (· ≤ ·)) :=
    List.sorted_insertionSort (· ≤ ·) l.dedup
  have hn : (l.dedup.insertionSort (· ≤ ·)).Nodup :=
    (List.perm_insertionSort (· ≤ ·) l.dedup).symm.nodup (List.nodup_dedup l)
  have hlt : List.Sorted (· < ·) (l.dedup.insertionSort (· ≤ ·)) := hs.lt_of_le hn
  have hgt : List.Sorted (· > ·) ((l.dedup.insertionSort (· ≤ ·)).reverse) :=
    List.pairwise_reverse.mpr hlt
  have hnr : ((l.dedup.insertionSort (· ≤ ·)).reverse).Nodup := by
    rw [List.nodup_reverse]; exact hn
  exact ⟨List.Pairwise.sublist (List.take_sublist k _) hgt,
    List.Nodup.sublist (List.take_sublist k _) hnr,
    List.length_take_le k _⟩

/-! ## Claims -/

/-- **C1.** For the closing-price series `[1,5,2,6,1,7,1]` with `window = 1`
and `max_levels = 3`, `find_support_resistance` returns resistance levels
`[7,6,5]` (sorted descending) and support levels `[1,2]` (sorted ascending). -/
theorem scenario_a_levels :
    find_support_resistance { hasClose := true, close := [1, 5, 2, 6, 1, 7, 1] } 1 3 =
      some ([1, 2], [7, 6, 5]) := by decide

/-- **C2 (counterexample).** The series `[1,5,1]` has 3 points, fewer than
`2*window+1 = 5` for `window = 2`, yet the detector returns the resistance
level `[5]`: with `mode='clip'` the out-of-range neighbours of index 1 are the
boundary values, so index 1 is still a local maximum. -/
theorem short_series_counterexample :
    find_support_resistance { hasClose := true, close := [1, 5, 1] } 2 3 = some ([], [5]) ∧
    ([1, 5, 1] : List ℚ).length < 2 * 2 + 1 ∧
    find_support_resistance { hasClose := true, close := [1, 5, 1] } 2 3 ≠ some ([], []) := by
  decide

/-- **C2 (amended).** For every `window ≥ 1` and every closing-price series
with fewer than 3 points (i.e. with no interior index), the level detector
returns two empty sequences. -/
theorem short_series_empty_levels (df : StockDF) (w ml : Nat) (hw : 1 ≤ w)
    (hlen : df.close.length < 3) :
    find_support_resistance df w ml = some ([], []) := by
  have hw2 : ¬ (w < 1) := by omega
  cases hguard : (df.isEmpty || !df.hasClose) with
  | true => simp [find_support_resistance, hguard]
  | false =>
      simp [find_support_resistance, hguard, argrelextrema, hw2,
        filter_isExtremum_short gtCmp gtCmp_irrefl df.close w hw hlen,
        filter_isExtremum_short ltCmp ltCmp_irrefl df.close w hw hlen]

/-- Witness for `short_series_empty_levels` at a concrete input. -/
theorem short_series_empty_levels_witness :
    1 ≤ 1 ∧ ({ hasClose := true, close := [9, 4] } : StockDF).close.length < 3 ∧
    find_support_resistance { hasClose := true, close := [9, 4] } 1 5 = some ([], []) :=
  ⟨by decide, by decide,
    short_series_empty_levels { hasClose := true, close := [9, 4] } 1 5 (by decide) (by decide)⟩

/-- **C3.** On a non-empty frame that has a Close column, the disabled-feature
parameterization the caller uses (`window = 0`, `max_levels = 0`) makes
`argrelextrema` raise `ValueError('Order must be an int >= 1')` (modelled as
`none`) instead of returning a pair of sequences; the error is not a
`KeyError`, so `plot_candlestick`'s handler does not catch it. -/
theorem window_zero_raises :
    find_support_resistance { hasClose := true, close := [1, 2, 3] } 0 0 = none := by decide

/-- **C4 (counterexample).** With `max_levels = 0` but `window = 0` (the
disabled-feature call path) on a non-empty series, the detector does not
return two empty sequences: the `argrelextrema` call raises (`none`). -/
theorem max_levels_zero_counterexample :
    find_support_resistance { hasClose := true, close := [4, 5, 6] } 0 0 ≠ some ([], []) := by
  decide

/-- **C4 (amended).** For every closing-price series and every `window ≥ 1`
(the detector's contract domain), if `max_levels = 0` then the level detector
returns two empty sequences, regardless of how many extrema exist. -/
theorem max_levels_zero_empty (df : StockDF) (w : Nat) (hw : 1 ≤ w) :
    find_support_resistance df w 0 = some ([], []) := by
  have hw2 : ¬ (w < 1) := by omega
  cases hguard : (df.isEmpty || !df.hasClose) with
  | true => simp [find_support_resistance, hguard]
  | false => simp [find_support_resistance, hguard, argrelextrema, hw2]

/-- Witness for `max_levels_zero_empty`: the series `[1,5,1]` with `window = 2`
has a detected extremum, yet `max_levels = 0` empties the output. -/
theorem max_levels_zero_empty_witness :
    find_support_resistance { hasClose := true, close := [1, 5, 1] } 2 0 = some ([], []) :=
  max_levels_zero_empty { hasClose := true, close := [1, 5, 1] } 2 (by decide)

/-- **C5.** For every input series, `window ≥ 1` and `max_levels`, whenever the
level detector returns, the resistance sequence is sorted strictly descending
with no duplicates, the support sequence sorted strictly ascending with no
duplicates, and each has at most `max_levels` elements. -/
theorem levels_sorted_bounded (df : StockDF) (w ml : Nat) (sup res : List ℚ)
    (hw : 1 ≤ w)
    (h : find_support_resistance df w ml = some (sup, res)) :
    List.Sorted (· > ·) res ∧ res.Nodup ∧ res.length ≤ ml ∧
    List.Sorted (· < ·) sup ∧ sup.Nodup ∧ sup.length ≤ ml := by
  have hw2 : ¬ (w < 1) := by omega
  cases hguard : (df.isEmpty || !df.hasClose) with
  | true =>
      rw [find_support_resistance] at h
      rw [hguard] at h
      simp only [if_true, Option.some.injEq, Prod.mk.injEq] at h
      obtain ⟨h1, h2⟩ := h
      subst h1; subst h2
      simp
  | false =>
      rw [find_support_resistance] at h
      rw [hguard] at h
      simp only [argrelextrema, hw2, if_false, Bool.false_eq_true, ite_false,
        Option.some.injEq, Prod.mk.injEq] at h
      obtain ⟨h1, h2⟩ := h
      subst h1; subst h2
      refine ⟨(sorted_take_desc _ ml).1, (sorted_take_desc _ ml).2.1,
        (sorted_take_desc _ ml).2.2, (sorted_take_asc _ ml).1,
        (sorted_take_asc _ ml).2.1, (sorted_take_asc _ ml).2.2⟩

/-- Witness for `levels_sorted_bounded` at Scenario A's input. -/
theorem levels_sorted_bounded_witness :
    List.Sorted (· > ·) ([7, 6, 5] : List ℚ) ∧ ([7, 6, 5] : List ℚ).Nodup ∧
    ([7, 6, 5] : List ℚ).length ≤ 3 ∧
    List.Sorted (· < ·) ([1, 2] : List ℚ) ∧ ([1, 2] : List ℚ).Nodup ∧
    ([1, 2] : List ℚ).length ≤ 3 :=
  levels_sorted_bounded { hasClose := true, close := [1, 5, 2, 6, 1, 7, 1] } 1 3
    [1, 2] [7, 6, 5] (by decide) (by decide)

/-- **C6 (counterexample).** With an empty ticker selection and
`start_date = 5 ≥ 3 = end_date`, the script takes the select-prompt branch,
not the invalid-date-range branch (the emptiness check comes first). -/
theorem date_guard_counterexample :
    (3 : Int) ≤ 5 ∧ main_dispatch [] 5 3 ≠ MainAction.invalidDateRange := by decide

/-- **C6 (amended).** Whenever at least one ticker is selected and the start
date is greater than or equal to the end date, the script reports the
invalid-date-range error and the fetch branch (the only place
`get_stock_data` is called) is not taken. -/
theorem date_guard_blocks_fetch (selected_tickers : List String)
    (start_date end_date : Int) (hne : selected_tickers ≠ [])
    (hdate : end_date ≤ start_date) :
    main_dispatch selected_tickers start_date end_date = MainAction.invalidDateRange ∧
    main_dispatch selected_tickers start_date end_date ≠ MainAction.fetchPipeline := by
  have hne2 : selected_tickers.isEmpty = false := by
    cases selected_tickers with
    | nil => exact absurd rfl hne
    | cons a l => rfl
  constructor
  · simp [main_dispatch, hne2, hdate]
  · simp [main_dispatch, hne2, hdate]

/-- Witness for `date_guard_blocks_fetch` at a concrete input. -/
theorem date_guard_blocks_fetch_witness :
    main_dispatch ["AAPL"] 7 7 = MainAction.invalidDateRange ∧
    main_dispatch ["AAPL"] 7 7 ≠ MainAction.fetchPipeline :=
  date_guard_blocks_fetch ["AAPL"] 7 7 (by decide) (by decide)

/-- **C7.** Every row of the frame returned by `get_stock_data` is a row of
the provider's frame in which every requested cell is present (rows with any
missing value are dropped, and complete rows are kept); and for an empty
ticker list the fetcher returns an empty frame without calling the provider. -/
theorem fetch_complete_rows (tickers : List String)
    (download : List (List (Option ℚ))) :
    (∀ row ∈ (get_stock_data tickers download).frame,
      row ∈ download ∧ ∀ cell ∈ row, cell.isSome = true) ∧
    (tickers ≠ [] → ∀ row ∈ download, (∀ cell ∈ row, cell.isSome = true) →
      row ∈ (get_stock_data tickers download).frame) ∧
    (tickers = [] → (get_stock_data tickers download).frame = [] ∧
      (get_stock_data tickers download).provider_called = false) := by
  cases tickers with
  | nil =>
      refine ⟨?_, ?_, ?_⟩
      · intro row hrow
        simp [get_stock_data] at hrow
      · intro hne
        exact absurd rfl hne
      · intro _
        exact ⟨rfl, rfl⟩
  | cons t ts =>
      refine ⟨?_, ?_, ?_⟩
      · intro row hrow
        simp only [get_stock_data, List.isEmpty_cons, if_false, Bool.false_eq_true,
          ite_false, dropna, List.mem_filter, List.all_eq_true] at hrow
        exact ⟨hrow.1, hrow.2⟩
      · intro _ row hrow hall
        simp only [get_stock_data, List.isEmpty_cons, if_false, Bool.false_eq_true,
          ite_false, dropna, List.mem_filter, List.all_eq_true]
        exact ⟨hrow, hall⟩
      · intro h
        exact absurd h (by simp)

/-- Witness for `fetch_complete_rows`: the empty-selection clause at a
concrete download containing an incomplete row. -/
theorem fetch_complete_rows_witness :
    (get_stock_data [] [[some 1, none]]).frame = [] ∧
    (get_stock_data [] [[some 1, none]]).provider_called = false :=
  (fetch_complete_rows [] [[some 1, none]]).2.2 rfl

/-- **C10.** For every series of length ≥ 1 and every `window ≥ 1`, neither
index 0 nor index `n-1` is ever returned by either `argrelextrema` call of the
level detector: a boundary point cannot beat the strict comparison against its
clipped neighbour, so every returned level originates at an interior index. -/
theorem boundary_not_extremum (prices : List ℚ) (w : Nat) (hw : 1 ≤ w)
    (_hn : 1 ≤ prices.length) :
    (∀ idxs, argrelextrema gtCmp prices w = some idxs →
      0 ∉ idxs ∧ prices.length - 1 ∉ idxs) ∧
    (∀ idxs, argrelextrema ltCmp prices w = some idxs →
      0 ∉ idxs ∧ prices.length - 1 ∉ idxs) := by
  have hw2 : ¬ (w < 1) := by omega
  have key : ∀ cmp : ℚ → ℚ → Bool, (∀ x, cmp x x = false) →
      ∀ idxs, argrelextrema cmp prices w = some idxs →
        0 ∉ idxs ∧ prices.length - 1 ∉ idxs := by
    intro cmp hc idxs hidxs
    simp only [argrelextrema, hw2, if_false, Bool.false_eq_true, ite_false,
      Option.some.injEq] at hidxs
    subst hidxs
    constructor
    · intro hmem
      rw [List.mem_filter] at hmem
      rw [isExtremum_zero_eq_false cmp hc prices w hw] at hmem
      exact absurd hmem.2 (by simp)
    · intro hmem
      rw [List.mem_filter] at hmem
      rw [isExtremum_last_eq_false cmp hc prices w hw] at hmem
      exact absurd hmem.2 (by simp)
  exact ⟨key gtCmp gtCmp_irrefl, key ltCmp ltCmp_irrefl⟩

/-- Witness for `boundary_not_extremum` at Scenario A's series. -/
theorem boundary_not_extremum_witness :
    (∀ idxs, argrelextrema gtCmp [1, 5, 2, 6, 1, 7, 1] 1 = some idxs →
      0 ∉ idxs ∧ ([1, 5, 2, 6, 1, 7, 1] : List ℚ).length - 1 ∉ idxs) ∧
    (∀ idxs, argrelextrema ltCmp [1, 5, 2, 6, 1, 7, 1] 1 = some idxs →
      0 ∉ idxs ∧ ([1, 5, 2, 6, 1, 7, 1] : List ℚ).length - 1 ∉ idxs) :=
  boundary_not_extremum [1, 5, 2, 6, 1, 7, 1] 1 (by decide) (by decide)

/-- The trailing slice taken by `rolling_mean` at row `i` is exactly the
series values at positions `i-period+1 .. i`. -/
theorem slice_eq_window (closes : List ℚ) (period i : Nat) (hp : period ≤ i + 1)
    (hi : i < closes.length) :
    (closes.take (i + 1)).drop (i + 1 - period) =
      (List.range period).map fun k => closes.getD (i + 1 - period + k) 0 := by
  apply List.ext_getElem
  · simp only [List.length_drop, List.length_take, List.length_map, List.length_range]
    omega
  · intro k h1 h2
    simp only [List.length_map, List.length_range] at h2
    simp only [List.getElem_drop, List.getElem_take, List.getElem_map, List.getElem_range]
    rw [List.getD_eq_getElem?_getD,
      List.getElem?_eq_getElem (by omega : i + 1 - period + k < closes.length)]
    rfl

/-- **C8.** With SMA period `p ≥ 1`: at each position `i` with `i ≥ p-1` the
overlay value is the arithmetic mean of the closes at positions `i-p+1 .. i`;
at the first `p-1` positions it is undefined; for a series shorter than `p`
every overlay point is undefined; and the candlestick trace is the close
series itself regardless of the overlay. -/
theorem sma_overlay_trailing_mean (closes : List ℚ) (period : Nat) (_hp : 1 ≤ period) :
    (∀ i, i < closes.length →
      (period ≤ i + 1 →
        (rolling_mean closes period).getD i none =
          some ((((List.range period).map fun k => closes.getD (i + 1 - period + k) 0).sum) /
            (period : ℚ))) ∧
      (i + 1 < period → (rolling_mean closes period).getD i none = none)) ∧
    (closes.length < period → ∀ v ∈ rolling_mean closes period, v = none) ∧
    (plot_sma_chart closes period).candles = closes := by
  refine ⟨?_, ?_, rfl⟩
  · intro i hi
    have hgl : (rolling_mean closes period).getD i none =
        (if i + 1 < period then none
         else some ((((closes.take (i + 1)).drop (i + 1 - period)).sum) / (period : ℚ))) := by
      unfold rolling_mean
      rw [List.getD_eq_getElem?_getD, List.getElem?_eq_getElem (by simpa using hi)]
      simp
    constructor
    · intro hple
      rw [hgl, if_neg (by omega), slice_eq_window closes period i hple hi]
    · intro hplt
      rw [hgl, if_pos hplt]
  · intro hlen v hv
    unfold rolling_mean at hv
    rw [List.mem_map] at hv
    obtain ⟨j, hj, rfl⟩ := hv
    rw [List.mem_range] at hj
    rw [if_pos (by omega)]

/-- Witness for `sma_overlay_trailing_mean` at a concrete series and period. -/
theorem sma_overlay_trailing_mean_witness :
    (rolling_mean [2, 4, 6] 2).getD 1 none =
      some ((((List.range 2).map fun k => ([2, 4, 6] : List ℚ).getD (1 + 1 - 2 + k) 0).sum) /
        (2 : ℚ)) :=
  ((sma_overlay_trailing_mean [2, 4, 6] 2 (by decide)).1 1 (by decide)).1 (by decide)

/-- **C9.** The grid loop yields exactly one cell per selected ticker, in
selection order: cell `i` holds ticker `i` of the selection, sits in column
`i % CHART_COLUMNS`, and is a warning cell exactly when the ticker has no
data (never an omission). -/
theorem grid_cells_spec (selected_tickers : List String) (has_data : String → Bool) :
    (grid_cells selected_tickers has_data).length = selected_tickers.length ∧
    ∀ i, i < selected_tickers.length →
      ((grid_cells selected_tickers has_data).getD i default).ticker =
        selected_tickers.getD i "" ∧
      ((grid_cells selected_tickers has_data).getD i default).column = i % CHART_COLUMNS ∧
      ((grid_cells selected_tickers has_data).getD i default).warning =
        !has_data (selected_tickers.getD i "") := by
  constructor
  · simp [grid_cells]
  · intro i hi
    have hlen : i < (grid_cells selected_tickers has_data).length := by
      simp [grid_cells, hi]
    have hcell : (grid_cells selected_tickers has_data).getD i default =
        { ticker := selected_tickers[i], column := i % CHART_COLUMNS,
          warning := !has_data selected_tickers[i] } := by
      rw [List.getD_eq_getElem?_getD, List.getElem?_eq_getElem hlen]
      simp [grid_cells, List.getElem_enum]
    have hgetD : selected_tickers.getD i "" = selected_tickers[i] := by
      rw [List.getD_eq_getElem?_getD, List.getElem?_eq_getElem hi]
      rfl
    rw [hcell, hgetD]
    exact ⟨rfl, rfl, rfl⟩

/-- Witness for `grid_cells_spec`: Scenario D, third ticker of three lands in
column 2 with its own chart cell. -/
theorem grid_cells_spec_witness :
    ((grid_cells ["AAPL", "MSFT", "GOOGL"] fun _ => true).getD 2 default).ticker =
      (["AAPL", "MSFT", "GOOGL"]).getD 2 "" ∧
    ((grid_cells ["AAPL", "MSFT", "GOOGL"] fun _ => true).getD 2 default).column =
      2 % CHART_COLUMNS ∧
    ((grid_cells ["AAPL", "MSFT", "GOOGL"] fun _ => true).getD 2 default).warning =
      !(fun _ => true) ((["AAPL", "MSFT", "GOOGL"]).getD 2 "") :=
  (grid_cells_spec ["AAPL", "MSFT", "GOOGL"] fun _ => true).2 2 (by decide)

end StockDashboard
